import Mathlib

/-!
Verification development for the keyset-pagination engine of
`gor_models_sample` (`gor_picture.go`, type `PicturePage` and its methods
`Current`, `Previous`, `Next`, `GetPage`, `buildOrder`, `buildIdRestrict`,
`buildPageCount`).

The Go code is embedded shallowly:

* the mutable receiver `*PicturePage` becomes explicit state passing:
  each navigation method takes the state and returns the (possibly
  partially mutated) state together with its result;
* the two storage collaborators `PictureCountWhere` and
  `FindPicturesWhere` become a `RowSource` record of response functions,
  and every issued storage call is additionally recorded in a trace so
  that "no storage call is made" is expressible;
* Go `int`/`int64` become `ℤ` (no arithmetic in the engine can overflow
  for the inputs considered here); Go strings become `String`;
* the Go map `Order map[string]string` becomes an association list
  `List (String × String)` with first-match lookup (Go maps have unique
  keys; their unspecified iteration order is modelled as list order);
* `int(math.Ceil(float64(a) / float64(b)))` in `buildPageCount` is
  modelled exactly, including IEEE-754 binary64 rounding, by the
  integer-level functions below (`flnat`, `ceilFlDivNat`,
  `ceilFloatDiv`).
-/

namespace GorPicture

/-! ## Exact integer model of the `float64` computation in `buildPageCount`

Go evaluates `int(math.Ceil(float64(a) / float64(b)))`.  For `int64`
inputs every intermediate value lies in the normal, non-overflowing
range of binary64, so the computation is fully described by rounding to
nearest, ties to even, at 53 significant bits:

* `float64(n)` for a nonnegative `int64` `n` is an integer: it equals
  `n` itself for `n ≤ 2^53`, and otherwise `n` rounded half-to-even to a
  multiple of `2^(⌊log2 n⌋ - 52)`.  `flnat` computes this value.
* the quotient of the two (integer-valued) operands is rounded once
  more to 53 significant bits, and `math.Ceil` followed by the `int`
  conversion then takes the exact mathematical ceiling of that rounded
  quotient.  `ceilFlDivNat x y` computes `⌈fl(x / y)⌉` directly in
  integer arithmetic: with `e = ⌊log2 (x/y)⌋`, the rounded quotient is
  `rhe (x * 2^(52-e)) y / 2^(52-e)` when `e < 52` and
  `rhe x (y * 2^(e-52)) * 2^(e-52)` when `e ≥ 52`.

All functions are executable with plain natural-number arithmetic.
-/

/-- Floor of log₂, by structural recursion on a fuel argument. -/
def lgAux : ℕ → ℕ → ℕ
  | 0, _ => 0
  | fuel + 1, n => if 2 ≤ n then lgAux fuel (n / 2) + 1 else 0

/-- Floor of log₂ for `n ≥ 1`; correct for every `n < 2 ^ 64`
(the inputs here are `int64`-ranged). -/
def lg (n : ℕ) : ℕ := lgAux 64 n

/-- Round `n / d` (with `d > 0`) to the nearest integer, ties to even:
the rounding mode of every IEEE-754 binary64 operation used by Go. -/
def rhe (n d : ℕ) : ℕ :=
  let q := n / d
  let r := n % d
  if 2 * r < d then q
  else if d < 2 * r then q + 1
  else if q % 2 = 0 then q else q + 1

/-- The exact value of `float64(n)` for a nonnegative integer `n < 2 ^ 63`:
`n` itself up to `2 ^ 53`, beyond that `n` rounded half-to-even to a
multiple of `2 ^ (lg n - 52)`.  The result is always an integer. -/
def flnat (n : ℕ) : ℕ :=
  let e := lg n
  if e ≤ 52 then n else rhe n (2 ^ (e - 52)) * 2 ^ (e - 52)

/-- `⌊log2 (x / y)⌋` of the positive rational `x / y` (for `x, y ≥ 1`). -/
def fexpZ (x y : ℕ) : ℤ :=
  if y ≤ x then (lg (x / y) : ℤ) else -((lg ((y - 1) / x) : ℤ) + 1)

/-- `⌈fl (x / y)⌉` for integer binary64 values `x ≥ 0`, `y > 0`: the
exact ceiling of the correctly rounded binary64 quotient `x / y`.  With
`e = ⌊log2 (x/y)⌋` the quotient rounds to a multiple of `u = 2^(e-52)`:
for `e ≥ 52` the rounded quotient `rhe x (y·u) · u` is an integer and is
its own ceiling, for `e < 52` the rounded quotient is
`rhe (x · 2^(52-e)) y / 2^(52-e)` and its ceiling is computed by integer
ceiling division. -/
def ceilFlDivNat (x y : ℕ) : ℕ :=
  if x = 0 then 0
  else if 52 ≤ fexpZ x y then
    rhe x (y * 2 ^ (fexpZ x y - 52).toNat) * 2 ^ (fexpZ x y - 52).toNat
  else
    (rhe (x * 2 ^ (52 - fexpZ x y).toNat) y + 2 ^ (52 - fexpZ x y).toNat - 1) /
      2 ^ (52 - fexpZ x y).toNat

/-- `int(math.Ceil(float64(a) / float64(b)))` as computed by
`buildPageCount`.  In the code it is reached only with a nonnegative
count `a` (an SQL `count(*)`) and, after the `PerPage` defaulting, a
nonzero `b`; the model fixes the value `0` outside that domain. -/
def ceilFloatDiv (a b : ℤ) : ℤ :=
  if a < 0 ∨ b ≤ 0 then 0 else (ceilFlDivNat (flnat a.toNat) (flnat b.toNat) : ℤ)

/-! ## Data model -/

/-- The `Picture` record (`time.Time` columns modelled as integers). -/
structure Picture where
  id : ℤ
  name : String
  url : String
  imageableId : ℤ
  imageableType : String
  createdAt : ℤ
  updatedAt : ℤ
  deriving Repr, DecidableEq

/-- A positional SQL parameter (`interface{}` in Go): either an integer
produced by the engine itself, or an arbitrary caller-supplied value. -/
inductive Param where
  | int : ℤ → Param
  | ext : String → Param
  deriving Repr, DecidableEq

/-- The pagination state `PicturePage`. -/
structure PicturePage where
  whereString : String
  whereParams : List Param
  order : List (String × String)
  firstId : ℤ
  lastId : ℤ
  pageNum : ℤ
  perPage : ℤ
  totalPages : ℤ
  totalItems : ℤ
  orderStr : String
  deriving Repr, DecidableEq

/-- One storage call issued to the Row Source. -/
inductive StorageCall where
  | count : String → List Param → StorageCall
  | find : String → List Param → StorageCall
  deriving Repr, DecidableEq

/-- The storage collaborator: the responses of `PictureCountWhere` and
`FindPicturesWhere` for each query. -/
structure RowSource where
  countWhere : String → List Param → Except String ℤ
  findWhere : String → List Param → Except String (List Picture)

instance {ε α : Type} [DecidableEq ε] [DecidableEq α] : DecidableEq (Except ε α) :=
  fun x y =>
    match x, y with
    | .ok a, .ok b =>
      if h : a = b then isTrue (by rw [h]) else isFalse (fun hh => h (Except.ok.inj hh))
    | .error a, .error b =>
      if h : a = b then isTrue (by rw [h]) else isFalse (fun hh => h (Except.error.inj hh))
    | .ok _, .error _ => isFalse (fun hh => Except.noConfusion hh)
    | .error _, .ok _ => isFalse (fun hh => Except.noConfusion hh)

/-- Result of a navigation method: the Go return value, the state of the
receiver after the call, and the storage calls issued during the call. -/
structure NavResult where
  res : Except String (List Picture)
  st : PicturePage
  calls : List StorageCall
  deriving DecidableEq

/-- First-match lookup in the order map (`_p.Order[k]` presence/value). -/
def lookupGo (m : List (String × String)) (k : String) : Option String :=
  (m.find? fun kv => kv.fst = k).map (·.snd)

/-! ## The engine, method by method -/

/-- `buildOrder`'s rendered clause: `" ORDER BY " + strings.Join(tempList, ", ")`
where `tempList` collects `"<col> <dir>"` over the order map. -/
def buildOrderStr (m : List (String × String)) : String :=
  " ORDER BY " ++ String.intercalate ", " (m.map fun kv => kv.fst ++ " " ++ kv.snd)

/-- `buildOrder`: caches the rendered ORDER BY clause in `orderStr`. -/
def buildOrder (p : PicturePage) : PicturePage :=
  { p with orderStr := buildOrderStr p.order }

/-- ASCII lowercasing of one character (`strings.ToLower` acts
characterwise; the order-direction values compared here are ASCII). -/
def lowerChar (c : Char) : Char :=
  if 'A' ≤ c ∧ c ≤ 'Z' then Char.ofNat (c.toNat + 32) else c

/-- `strings.ToLower` on the ASCII direction strings of the order map. -/
def lowerStr (s : String) : String := ⟨s.data.map lowerChar⟩

/-- `buildIdRestrict(direction)`: the keyset id-range predicate and its
bound parameters, prefixed with `" AND "` when `WhereString` is nonempty. -/
def buildIdRestrict (p : PicturePage) (direction : String) : String × List Param :=
  let descOrd := lowerStr ((lookupGo p.order "id").getD "") = "desc"
  let pair : String × List Param :=
    if direction = "previous" then
      if descOrd then ("id > ? ", [.int p.firstId]) else ("id < ? ", [.int p.firstId])
    else if direction = "current" then
      if p.pageNum = 0 ∧ p.firstId = 0 ∧ p.lastId = 0 then ("id > ? ", [.int 0])
      else if descOrd then ("id <= ? AND id >= ? ", [.int p.firstId, .int p.lastId])
      else ("id >= ? AND id <= ? ", [.int p.firstId, .int p.lastId])
    else if direction = "next" then
      if descOrd then ("id < ? ", [.int p.lastId]) else ("id > ? ", [.int p.lastId])
    else ("", [])
  if p.whereString ≠ "" then (" AND " ++ pair.fst, pair.snd) else pair

/-- `buildPageCount`: stores the fresh count in `TotalItems`, defaults
`PerPage` to 10 when zero, recomputes `TotalPages` via the `float64`
ceiling.  On a count error the receiver is left untouched. -/
def buildPageCount (rs : RowSource) (p : PicturePage) : Except String PicturePage :=
  match rs.countWhere p.whereString p.whereParams with
  | .error e => .error e
  | .ok cnt =>
    let p1 : PicturePage := { p with totalItems := cnt }
    let p2 : PicturePage := if p1.perPage = 0 then { p1 with perPage := 10 } else p1
    .ok { p2 with totalPages := ceilFloatDiv p2.totalItems p2.perPage }

/-- The `fmt.Sprintf("%s %s %s LIMIT %v", ...)` query text shared by the
three navigation methods. -/
def navWhereStr (p : PicturePage) (idStr : String) : String :=
  p.whereString ++ " " ++ idStr ++ " " ++ p.orderStr ++ " LIMIT " ++ toString p.perPage

/-- `Current()`: id-order check, fresh count, cached order build,
"current" id restriction, find; on nonempty results updates
`FirstId`/`LastId`; never touches `PageNum`. -/
def Current (rs : RowSource) (p : PicturePage) : NavResult :=
  if (lookupGo p.order "id").isSome = false then
    ⟨.error "No id order specified in Order map", p, []⟩
  else
    match buildPageCount rs p with
    | .error e =>
      ⟨.error ("Calculate page count error: " ++ e), p,
        [.count p.whereString p.whereParams]⟩
    | .ok p1 =>
      let p2 := if p1.orderStr = "" then buildOrder p1 else p1
      let idp := buildIdRestrict p2 "current"
      let w := navWhereStr p2 idp.fst
      let ps := p2.whereParams ++ idp.snd
      match rs.findWhere w ps with
      | .error e => ⟨.error e, p2, [.count p.whereString p.whereParams, .find w ps]⟩
      | .ok pics =>
        let p3 :=
          match pics with
          | [] => p2
          | x :: _ => { p2 with firstId := x.id, lastId := (pics.getLast?.getD x).id }
        ⟨.ok pics, p3, [.count p.whereString p.whereParams, .find w ps]⟩

/-- `Previous()`: boundary check on `PageNum == 0` first, then the same
pipeline with the "previous" restriction; decrements `PageNum` on success. -/
def Previous (rs : RowSource) (p : PicturePage) : NavResult :=
  if p.pageNum = 0 then
    ⟨.error "This's the first page, no previous page yet", p, []⟩
  else if (lookupGo p.order "id").isSome = false then
    ⟨.error "No id order specified in Order map", p, []⟩
  else
    match buildPageCount rs p with
    | .error e =>
      ⟨.error ("Calculate page count error: " ++ e), p,
        [.count p.whereString p.whereParams]⟩
    | .ok p1 =>
      let p2 := if p1.orderStr = "" then buildOrder p1 else p1
      let idp := buildIdRestrict p2 "previous"
      let w := navWhereStr p2 idp.fst
      let ps := p2.whereParams ++ idp.snd
      match rs.findWhere w ps with
      | .error e => ⟨.error e, p2, [.count p.whereString p.whereParams, .find w ps]⟩
      | .ok pics =>
        let p3 :=
          match pics with
          | [] => p2
          | x :: _ => { p2 with firstId := x.id, lastId := (pics.getLast?.getD x).id }
        ⟨.ok pics, { p3 with pageNum := p3.pageNum - 1 },
          [.count p.whereString p.whereParams, .find w ps]⟩

/-- `Next()`: boundary check `PageNum == TotalPages-1` first — against
the *stored* `TotalPages`, before the fresh count — then the same
pipeline with the "next" restriction; increments `PageNum` on success. -/
def Next (rs : RowSource) (p : PicturePage) : NavResult :=
  if p.pageNum = p.totalPages - 1 then
    ⟨.error "This's the last page, no next page yet", p, []⟩
  else if (lookupGo p.order "id").isSome = false then
    ⟨.error "No id order specified in Order map", p, []⟩
  else
    match buildPageCount rs p with
    | .error e =>
      ⟨.error ("Calculate page count error: " ++ e), p,
        [.count p.whereString p.whereParams]⟩
    | .ok p1 =>
      let p2 := if p1.orderStr = "" then buildOrder p1 else p1
      let idp := buildIdRestrict p2 "next"
      let w := navWhereStr p2 idp.fst
      let ps := p2.whereParams ++ idp.snd
      match rs.findWhere w ps with
      | .error e => ⟨.error e, p2, [.count p.whereString p.whereParams, .find w ps]⟩
      | .ok pics =>
        let p3 :=
          match pics with
          | [] => p2
          | x :: _ => { p2 with firstId := x.id, lastId := (pics.getLast?.getD x).id }
        ⟨.ok pics, { p3 with pageNum := p3.pageNum + 1 },
          [.count p.whereString p.whereParams, .find w ps]⟩

/-- The rows a Go caller observes from `ps, _ = delegate()`: the returned
slice on success, `nil` (the empty list) on a discarded error. -/
def swallowRows : Except String (List Picture) → List Picture
  | .ok l => l
  | .error _ => []

/-- `GetPage(direction)`: dispatches on the direction string; the
delegated call's error is assigned to `_`, so the named return `err`
stays `nil` and only the rows (nil on failure) are surfaced. -/
def GetPage (rs : RowSource) (p : PicturePage) (direction : String) : NavResult :=
  if direction = "previous" then
    let r := Previous rs p
    ⟨.ok (swallowRows r.res), r.st, r.calls⟩
  else if direction = "next" then
    let r := Next rs p
    ⟨.ok (swallowRows r.res), r.st, r.calls⟩
  else if direction = "current" then
    let r := Current rs p
    ⟨.ok (swallowRows r.res), r.st, r.calls⟩
  else ⟨.error "Error: wrong dircetion! None of previous, current or next!", p, []⟩

/-! ## Concrete instances used by the theorems below -/

/-- A picture row with a given id. -/
def pic (i : ℤ) : Picture := ⟨i, "", "", 0, "", 0, 0⟩

/-- A Row Source that answers no query; used where a run must fail at
the storage layer or must never reach it. -/
def rsNone : RowSource where
  countWhere := fun _ _ => .error "unexpected query"
  findWhere := fun _ _ => .error "unexpected query"

/-- Row Source of an unfiltered 20-row table with ids 1..20, answering
the two queries issued by the run in the C2 counterexample: the count,
and the next-page query `id > 20` (which matches no row). -/
def rsTwenty : RowSource where
  countWhere := fun w ps => if w = "" ∧ ps = [] then .ok 20 else .error "unexpected query"
  findWhere := fun w ps =>
    if w = " id > ?   ORDER BY id asc LIMIT 10" ∧ ps = [.int 20] then .ok []
    else .error "unexpected query"

/-- Pagination state on page 1 of the table behind `rsTwenty`, with a
stale stored page count (5 pages) left over from an earlier, larger
data set. -/
def stStale : PicturePage :=
  { whereString := "", whereParams := [], order := [("id", "asc")], firstId := 11,
    lastId := 20, pageNum := 1, perPage := 10, totalPages := 5, totalItems := 50,
    orderStr := "" }

/-- Row Source whose count is `2 ^ 53 + 1`, a legal `int64` count. -/
def rsHuge : RowSource where
  countWhere := fun w ps =>
    if w = "" ∧ ps = [] then .ok (2 ^ 53 + 1) else .error "unexpected query"
  findWhere := fun _ _ => .error "unexpected query"

/-- Fresh paginator with page size 1. -/
def stOne : PicturePage :=
  { whereString := "", whereParams := [], order := [("id", "asc")], firstId := 0,
    lastId := 0, pageNum := 0, perPage := 1, totalPages := 0, totalItems := 0,
    orderStr := "" }

/-- Row Source whose count succeeds (25 rows) but whose find queries
fail with a storage error. -/
def rsFindFails : RowSource where
  countWhere := fun w ps => if w = "" ∧ ps = [] then .ok 25 else .error "unexpected query"
  findWhere := fun _ _ => .error "connection lost"

/-- Fresh paginator with page size 10. -/
def stFresh : PicturePage :=
  { whereString := "", whereParams := [], order := [("id", "asc")], firstId := 0,
    lastId := 0, pageNum := 0, perPage := 10, totalPages := 0, totalItems := 0,
    orderStr := "" }

/-- Paginator whose sort specification lacks the identity column. -/
def stNoId : PicturePage :=
  { whereString := "", whereParams := [], order := [("name", "asc")], firstId := 0,
    lastId := 0, pageNum := 0, perPage := 10, totalPages := 0, totalItems := 0,
    orderStr := "" }

/-- The same sort specification, but positioned past page 0 and not on
the stored last page. -/
def stNoIdMid : PicturePage := { stNoId with pageNum := 3, totalPages := 9 }

/-- Row Source of the unfiltered 25-row table with ids 1..25, answering
exactly the queries issued in the C7 run: the count, the next-page query
`id > 20` (rows 21..25) and the previous-page query `id < 21` ordered
ascending with LIMIT 10 (rows 1..10, as SQL returns for that query). -/
def rsTable25 : RowSource where
  countWhere := fun w ps => if w = "" ∧ ps = [] then .ok 25 else .error "unexpected query"
  findWhere := fun w ps =>
    if w = " id > ?   ORDER BY id asc LIMIT 10" ∧ ps = [.int 20] then
      .ok [pic 21, pic 22, pic 23, pic 24, pic 25]
    else if w = " id < ?   ORDER BY id asc LIMIT 10" ∧ ps = [.int 21] then
      .ok [pic 1, pic 2, pic 3, pic 4, pic 5, pic 6, pic 7, pic 8, pic 9, pic 10]
    else .error "unexpected query"

/-- Paginator positioned on page 1 (rows 11..20) of the 25-row table. -/
def stPage1 : PicturePage :=
  { whereString := "", whereParams := [], order := [("id", "asc")], firstId := 11,
    lastId := 20, pageNum := 1, perPage := 10, totalPages := 3, totalItems := 25,
    orderStr := "" }

/-- `stPage1` at the stored boundary `pageNum = totalPages - 1`. -/
def stLastStale : PicturePage := { stPage1 with pageNum := 2 }

/-- `stPage1` with the ORDER BY clause already cached. -/
def stCached : PicturePage := { stPage1 with orderStr := " ORDER BY id asc" }

/-- Row Source whose count succeeds (25 rows) and whose find queries all
succeed with an empty row set. -/
def rsEmptyFinds : RowSource where
  countWhere := fun w ps => if w = "" ∧ ps = [] then .ok 25 else .error "unexpected query"
  findWhere := fun _ _ => .ok []

end GorPicture

namespace GorPicture

/-! ## Correctness of the `float64` ceiling on the exact range

For counts up to `2 ^ 53` (and page sizes up to `2 ^ 53`) the binary64
computation of `buildPageCount` is exact: it agrees with the integer
ceiling `(a + b - 1) / b`.  Beyond `2 ^ 53` it can differ (see the
counterexample for claim C3 below). -/

theorem lgAux_spec (fuel : ℕ) :
    ∀ n, 1 ≤ n → n < 2 ^ fuel → 2 ^ lgAux fuel n ≤ n ∧ n < 2 ^ (lgAux fuel n + 1) := by
  induction fuel with
  | zero => intro n h1 h2; omega
  | succ fuel ih =>
    intro n h1 h2
    by_cases h : 2 ≤ n
    · have h1' : 1 ≤ n / 2 := (Nat.one_le_div_iff (by norm_num)).2 h
      have h2' : n / 2 < 2 ^ fuel := by
        rw [Nat.div_lt_iff_lt_mul (by norm_num)]
        calc n < 2 ^ (fuel + 1) := h2
          _ = 2 ^ fuel * 2 := by rw [pow_succ]
      obtain ⟨lo, hi⟩ := ih (n / 2) h1' h2'
      have hstep : lgAux (fuel + 1) n = lgAux fuel (n / 2) + 1 := by
        simp [lgAux, h]
      rw [hstep]
      have hdm := Nat.div_add_mod n 2
      have hml : n % 2 < 2 := Nat.mod_lt _ (by norm_num)
      constructor
      · calc 2 ^ (lgAux fuel (n / 2) + 1) = 2 ^ lgAux fuel (n / 2) * 2 := by rw [pow_succ]
          _ ≤ n / 2 * 2 := Nat.mul_le_mul_right 2 lo
          _ ≤ n := by omega
      · have hlt : n < (n / 2 + 1) * 2 := by omega
        calc n < (n / 2 + 1) * 2 := hlt
          _ ≤ 2 ^ (lgAux fuel (n / 2) + 1) * 2 := Nat.mul_le_mul_right 2 hi
          _ = 2 ^ (lgAux fuel (n / 2) + 1 + 1) := (pow_succ 2 _).symm
    · have hn : n = 1 := by omega
      subst hn
      simp [lgAux]

theorem lg_spec {n : ℕ} (h1 : 1 ≤ n) (h2 : n < 2 ^ 64) :
    2 ^ lg n ≤ n ∧ n < 2 ^ (lg n + 1) :=
  lgAux_spec 64 n h1 h2

theorem rhe_of_mod_eq_zero {n d : ℕ} (hd : 0 < d) (h : n % d = 0) : rhe n d = n / d := by
  simp [rhe, h, hd]

/-- The rounded value is within half an ulp: `2n ≤ 2 (rhe n d) d + d`. -/
theorem rhe_half {n d : ℕ} (hd : 0 < d) : 2 * n ≤ 2 * rhe n d * d + d := by
  have hdm := Nat.div_add_mod n d
  have hml : n % d < d := Nat.mod_lt _ hd
  have e1 : 2 * (n / d) * d = 2 * (d * (n / d)) := by ring
  have e2 : 2 * (n / d + 1) * d = 2 * (d * (n / d)) + 2 * d := by ring
  simp only [rhe]
  split_ifs <;> omega

/-- The rounded value never overshoots a multiple of `d` lying above `n`. -/
theorem rhe_le {n d m : ℕ} (hd : 0 < d) (h : n ≤ m * d) : rhe n d ≤ m := by
  have hdm := Nat.div_add_mod n d
  have hml : n % d < d := Nat.mod_lt _ hd
  have hcm : m * d = d * m := Nat.mul_comm m d
  have hq : n / d ≤ m :=
    le_trans (Nat.div_le_div_right h) (le_of_eq (Nat.mul_div_cancel m hd))
  have hcase : n / d < m ∨ n % d = 0 := by
    rcases eq_or_lt_of_le hq with he | hl
    · right
      rw [he] at hdm
      omega
    · left
      exact hl
  simp only [rhe]
  split_ifs <;> omega

/-- `float64` is exact on integers up to `2 ^ 53`. -/
theorem flnat_exact {n : ℕ} (h : n ≤ 2 ^ 53) : flnat n = n := by
  by_cases hle : lg n ≤ 52
  · unfold flnat
    simp [hle]
  · -- `lg n ≥ 53` forces `n = 2 ^ 53`, where rounding is still exact
    have h1 : 1 ≤ n := by
      by_contra h0
      have hn0 : n = 0 := by omega
      subst hn0
      exact hle (by decide)
    obtain ⟨lo, _⟩ := lg_spec h1 (lt_of_le_of_lt h (by norm_num))
    have h53 : lg n = 53 := by
      have hup : lg n ≤ 53 := by
        by_contra hgt
        push_neg at hgt
        have : 2 ^ 54 ≤ 2 ^ lg n := Nat.pow_le_pow_right (by norm_num) hgt
        have : (2 : ℕ) ^ 54 ≤ 2 ^ 53 := le_trans (le_trans this lo) h
        norm_num at this
      omega
    have hn : n = 2 ^ 53 := by
      rw [h53] at lo
      omega
    subst hn
    decide

/-- If the fractional part of `a / b` exceeds half an ulp `2 ^ k`-th,
the rounded scaled quotient lands strictly between `⌊a/b⌋ · 2^k` and
`⌈a/b⌉ · 2^k`. -/
theorem rhe_between {a b t r k : ℕ} (hb : 0 < b) (hdm : b * t + r = a)
    (hrb : r < b) (hkey : b < r * 2 ^ (k + 1)) :
    t * 2 ^ k < rhe (a * 2 ^ k) b ∧ rhe (a * 2 ^ k) b ≤ (t + 1) * 2 ^ k := by
  have hh := rhe_half (n := a * 2 ^ k) hb
  constructor
  · have hexp : 2 * (a * 2 ^ k) = 2 * b * (t * 2 ^ k) + r * 2 ^ (k + 1) := by
      rw [← hdm]
      ring
    have hB : 2 * (a * 2 ^ k) ≤ 2 * b * rhe (a * 2 ^ k) b + b := by
      calc 2 * (a * 2 ^ k) ≤ 2 * rhe (a * 2 ^ k) b * b + b := hh
        _ = 2 * b * rhe (a * 2 ^ k) b + b := by ring
    have h2 : 2 * b * (t * 2 ^ k) < 2 * b * rhe (a * 2 ^ k) b := by omega
    exact lt_of_mul_lt_mul_left h2 (by omega)
  · apply rhe_le hb
    have hab : a ≤ b * (t + 1) := by
      have e : b * (t + 1) = b * t + b := by ring
      omega
    calc a * 2 ^ k ≤ b * (t + 1) * 2 ^ k := Nat.mul_le_mul_right _ hab
      _ = (t + 1) * 2 ^ k * b := by ring

/-- Ceiling division of a value strictly between two consecutive
multiples of `2 ^ k`. -/
theorem low_branch_div {m t k : ℕ} (h1 : t * 2 ^ k < m) (h2 : m ≤ (t + 1) * 2 ^ k) :
    (m + 2 ^ k - 1) / 2 ^ k = t + 1 := by
  have hk : 0 < 2 ^ k := Nat.pos_pow_of_pos k (by norm_num)
  have e1 : (t + 1) * 2 ^ k = t * 2 ^ k + 2 ^ k := by ring
  have e2 : (t + 2) * 2 ^ k = t * 2 ^ k + 2 ^ k + 2 ^ k := by ring
  have lo : (t + 1) * 2 ^ k ≤ m + 2 ^ k - 1 := by omega
  have hi : m + 2 ^ k - 1 < (t + 2) * 2 ^ k := by omega
  have hle : t + 1 ≤ (m + 2 ^ k - 1) / 2 ^ k := (Nat.le_div_iff_mul_le hk).2 lo
  have hlt : (m + 2 ^ k - 1) / 2 ^ k < t + 2 := (Nat.div_lt_iff_lt_mul hk).2 hi
  omega

/-- On the exact range the `float64` ceiling agrees with the integer
ceiling `(a + b - 1) / b`. -/
theorem ceilFlDivNat_eq {a b : ℕ} (ha : a ≤ 2 ^ 53) (hb1 : 1 ≤ b) (hb : b ≤ 2 ^ 53) :
    ceilFlDivNat a b = (a + b - 1) / b := by
  by_cases ha0 : a = 0
  · subst ha0
    unfold ceilFlDivNat
    rw [if_pos rfl, Nat.div_eq_of_lt (by omega)]
  · have ha1 : 1 ≤ a := Nat.one_le_iff_ne_zero.2 ha0
    have hb0 : 0 < b := hb1
    have hdm := Nat.div_add_mod a b
    by_cases hba : b ≤ a
    · -- the exponent is `lg (a / b) ≥ 0`
      have hfe : fexpZ a b = (lg (a / b) : ℤ) := by rw [fexpZ, if_pos hba]
      have hq1 : 1 ≤ a / b := (Nat.one_le_div_iff hb0).2 hba
      have hq2 : a / b < 2 ^ 64 :=
        lt_of_le_of_lt (le_trans (Nat.div_le_self a b) ha) (by norm_num)
      obtain ⟨blo, bhi⟩ := lg_spec hq1 hq2
      have hlow : b * 2 ^ lg (a / b) ≤ a := by
        calc b * 2 ^ lg (a / b) ≤ b * (a / b) := Nat.mul_le_mul_left b blo
          _ ≤ a := by omega
      have hLle : lg (a / b) ≤ 53 := by
        have h2L : 2 ^ lg (a / b) ≤ 2 ^ 53 :=
          le_trans blo (le_trans (Nat.div_le_self a b) ha)
        exact (Nat.pow_le_pow_iff_right (by norm_num)).1 h2L
      by_cases h52 : 52 ≤ lg (a / b)
      · -- high branch: only the degenerate shapes `b ≤ 2` survive `a ≤ 2^53`
        rcases (by omega : lg (a / b) = 52 ∨ lg (a / b) = 53) with hL | hL
        · rw [hL] at hlow
          have hble : b ≤ 2 := by
            by_contra hbgt
            push_neg at hbgt
            have h3 : 3 * 2 ^ 52 ≤ b * 2 ^ 52 :=
              Nat.mul_le_mul_right _ (by omega)
            omega
          rcases (by omega : b = 1 ∨ b = 2) with hbv | hbv
          · subst hbv
            have hL1 : lg a = 52 := by rwa [Nat.div_one] at hL
            have hfe52 : fexpZ a 1 = (52 : ℤ) := by
              rw [fexpZ, if_pos hba, Nat.div_one, hL1]
              norm_num
            have htn0 : (fexpZ a 1 - 52).toNat = 0 := by
              rw [hfe52]
              decide
            unfold ceilFlDivNat
            rw [if_neg ha0, if_pos (by omega), htn0]
            have h11 : rhe a (1 * 2 ^ 0) * 2 ^ 0 = a := by
              norm_num
              rw [rhe_of_mod_eq_zero (by norm_num) (Nat.mod_one a), Nat.div_one]
            rw [h11, Nat.div_one]
            omega
          · subst hbv
            have hav : a = 2 ^ 53 := by omega
            subst hav
            decide
        · rw [hL] at hlow
          have hbv : b = 1 := by
            by_contra hbne
            have h2 : 2 * 2 ^ 53 ≤ b * 2 ^ 53 :=
              Nat.mul_le_mul_right _ (by omega)
            omega
          subst hbv
          have hav : a = 2 ^ 53 := by omega
          subst hav
          decide
      · -- low branch with nonnegative exponent `L ≤ 51`
        push_neg at h52
        have hnot : ¬ 52 ≤ fexpZ a b := by
          rw [hfe]
          exact_mod_cast not_le.2 (by exact_mod_cast h52)
        have htn : ((52 : ℤ) - fexpZ a b).toNat = 52 - lg (a / b) := by
          rw [hfe]
          omega
        unfold ceilFlDivNat
        rw [if_neg ha0, if_neg hnot, htn]
        have hk1 : 1 ≤ 52 - lg (a / b) := by omega
        have hLk : lg (a / b) + (52 - lg (a / b)) = 52 := by omega
        have hpk : 1 ≤ 2 ^ (52 - lg (a / b)) := Nat.one_le_two_pow
        have hposk : 0 < 2 ^ (52 - lg (a / b)) := hpk
        by_cases hr : a % b = 0
        · -- exact quotient
          have hteq : b * (a / b) = a := by omega
          have hEq : a * 2 ^ (52 - lg (a / b)) = b * (a / b * 2 ^ (52 - lg (a / b))) := by
            rw [← mul_assoc, hteq]
          have hmod : (a * 2 ^ (52 - lg (a / b))) % b = 0 := by
            rw [hEq]
            exact Nat.mul_mod_right b _
          rw [rhe_of_mod_eq_zero hb0 hmod]
          have hdiv : a * 2 ^ (52 - lg (a / b)) / b = a / b * 2 ^ (52 - lg (a / b)) := by
            rw [hEq]
            exact Nat.mul_div_cancel_left _ hb0
          rw [hdiv]
          have hc : a / b * 2 ^ (52 - lg (a / b)) = 2 ^ (52 - lg (a / b)) * (a / b) :=
            Nat.mul_comm _ _
          have hnum : a / b * 2 ^ (52 - lg (a / b)) + 2 ^ (52 - lg (a / b)) - 1 =
              2 ^ (52 - lg (a / b)) * (a / b) + (2 ^ (52 - lg (a / b)) - 1) := by omega
          have hrhs : a + b - 1 = b * (a / b) + (b - 1) := by omega
          rw [hnum, Nat.mul_add_div hposk, hrhs, Nat.mul_add_div hb0]
          have z1 : (2 ^ (52 - lg (a / b)) - 1) / 2 ^ (52 - lg (a / b)) = 0 :=
            Nat.div_eq_of_lt (by omega)
          have z2 : (b - 1) / b = 0 := Nat.div_eq_of_lt (by omega)
          omega
        · -- fractional quotient: rounding lands on the ceiling
          have hr1 : 1 ≤ a % b := by omega
          have hrb : a % b < b := Nat.mod_lt a hb0
          have hkey : b < a % b * 2 ^ (52 - lg (a / b) + 1) := by
            by_contra hkeyn
            push_neg at hkeyn
            have h2k : 2 ^ (52 - lg (a / b) + 1) ≤ b :=
              le_trans (Nat.le_mul_of_pos_left _ hr1) hkeyn
            have hstep : b * 2 ^ 52 ≤ a * 2 ^ (52 - lg (a / b)) := by
              calc b * 2 ^ 52 = b * 2 ^ lg (a / b) * 2 ^ (52 - lg (a / b)) := by
                    rw [mul_assoc, ← pow_add, hLk]
                _ ≤ a * 2 ^ (52 - lg (a / b)) := Nat.mul_le_mul_right _ hlow
            have hchain1 : 2 ^ (52 - lg (a / b) + 1) * 2 ^ 52 ≤ b * 2 ^ 52 :=
              Nat.mul_le_mul_right _ h2k
            have hchain2 : a * 2 ^ (52 - lg (a / b)) ≤ 2 ^ 53 * 2 ^ (52 - lg (a / b)) :=
              Nat.mul_le_mul_right _ ha
            have hpe1 : 2 ^ (52 - lg (a / b) + 1) * 2 ^ 52 =
                2 ^ 53 * 2 ^ (52 - lg (a / b)) := by
              rw [← pow_add, ← pow_add]
              congr 1
              omega
            have hbeq : b * 2 ^ 52 = 2 ^ (52 - lg (a / b) + 1) * 2 ^ 52 := by omega
            have haeq : a * 2 ^ (52 - lg (a / b)) = 2 ^ 53 * 2 ^ (52 - lg (a / b)) := by
              omega
            have hbv : b = 2 ^ (52 - lg (a / b) + 1) :=
              Nat.eq_of_mul_eq_mul_right (by norm_num) hbeq
            have hav : a = 2 ^ 53 :=
              Nat.eq_of_mul_eq_mul_right (Nat.pos_pow_of_pos _ (by norm_num)) haeq
            have hdvd : b ∣ a := by
              rw [hbv, hav]
              exact pow_dvd_pow 2 (by omega)
            rw [Nat.dvd_iff_mod_eq_zero] at hdvd
            omega
          obtain ⟨hlo2, hhi2⟩ :=
            rhe_between (a := a) (b := b) (t := a / b) (r := a % b)
              (k := 52 - lg (a / b)) hb0 (by omega) hrb hkey
          rw [low_branch_div hlo2 hhi2]
          have hb2 : b * (a / b + 1) = b * (a / b) + b := by ring
          have hrhs : a + b - 1 = b * (a / b + 1) + (a % b - 1) := by omega
          rw [hrhs, Nat.mul_add_div hb0]
          have z2 : (a % b - 1) / b = 0 := Nat.div_eq_of_lt (by omega)
          omega
    · -- `a < b`: the quotient lies in `(0, 1)` and its ceiling is 1
      push_neg at hba
      have hfe : fexpZ a b = -((lg ((b - 1) / a) : ℤ) + 1) := by
        rw [fexpZ, if_neg (by omega)]
      have hnot : ¬ 52 ≤ fexpZ a b := by
        rw [hfe]
        omega
      have htn : ((52 : ℤ) - fexpZ a b).toNat = 53 + lg ((b - 1) / a) := by
        rw [hfe]
        omega
      unfold ceilFlDivNat
      rw [if_neg ha0, if_neg hnot, htn]
      have hkey : b < a * 2 ^ (53 + lg ((b - 1) / a) + 1) := by
        calc b ≤ 2 ^ 53 := hb
          _ < 2 ^ (53 + lg ((b - 1) / a) + 1) :=
            Nat.pow_lt_pow_right (by norm_num) (by omega)
          _ ≤ a * 2 ^ (53 + lg ((b - 1) / a) + 1) := Nat.le_mul_of_pos_left _ ha1
      obtain ⟨hlo2, hhi2⟩ :=
        rhe_between (a := a) (b := b) (t := 0) (r := a)
          (k := 53 + lg ((b - 1) / a)) hb0 (by omega) hba hkey
      rw [low_branch_div hlo2 hhi2]
      have hrhs : a + b - 1 = b * 1 + (a - 1) := by omega
      rw [hrhs, Nat.mul_add_div hb0]
      have z2 : (a - 1) / b = 0 := Nat.div_eq_of_lt (by omega)
      omega

/-- On the exact range, `int(math.Ceil(float64 a / float64 b))` is the
integer ceiling of `a / b`. -/
theorem ceilFloatDiv_eq {a b : ℤ} (ha0 : 0 ≤ a) (ha : a ≤ 2 ^ 53)
    (hb1 : 1 ≤ b) (hb : b ≤ 2 ^ 53) :
    ceilFloatDiv a b = (a + b - 1) / b := by
  unfold ceilFloatDiv
  rw [if_neg (by omega)]
  rw [flnat_exact (by omega), flnat_exact (by omega),
    ceilFlDivNat_eq (by omega) (by omega) (by omega)]
  have h1 : a.toNat + b.toNat - 1 = (a + b - 1).toNat := by omega
  rw [h1, Int.natCast_div, Int.toNat_of_nonneg (by omega), Int.toNat_of_nonneg (by omega)]

/-- `(c + p - 1) / p` is the least integer at least `c / p`: the defining
property of `⌈c / p⌉`. -/
theorem ceil_div_spec (c p : ℤ) (hp : 1 ≤ p) :
    c ≤ (c + p - 1) / p * p ∧ ((c + p - 1) / p - 1) * p < c := by
  have hdm := Int.ediv_add_emod (c + p - 1) p
  have hm0 : 0 ≤ (c + p - 1) % p := Int.emod_nonneg _ (by omega)
  have hml : (c + p - 1) % p < p := Int.emod_lt_of_pos _ (by omega)
  have e1 : (c + p - 1) / p * p = p * ((c + p - 1) / p) := by ring
  have e2 : ((c + p - 1) / p - 1) * p = p * ((c + p - 1) / p) - p := by ring
  omega

/-! ## The claims -/

/-- C1: `buildIdRestrict(direction)` produces exactly the id-range
predicate of the specification's table: for `previous`, `id < firstId`
under ascending identity order and `id > firstId` under descending; for
`next`, `id > lastId` under ascending and `id < lastId` under
descending; for `current` with no page loaded yet
(`pageNum = 0` and `firstId = lastId = 0`) the bootstrap predicate
`id > 0` regardless of order; for `current` with a page loaded,
`firstId ≤ id ≤ lastId` under ascending and `lastId ≤ id ≤ firstId`
under descending; and the predicate is prefixed with `" AND "` (to be
conjoined with the base filter) exactly when the base filter expression
is nonempty, otherwise it stands alone. -/
theorem c1_buildIdRestrict_table (p : PicturePage) :
    (buildIdRestrict p "previous" =
      ((if p.whereString ≠ "" then " AND " else "") ++
        (if lowerStr ((lookupGo p.order "id").getD "") = "desc" then "id > ? " else "id < ? "),
       [.int p.firstId])) ∧
    (buildIdRestrict p "next" =
      ((if p.whereString ≠ "" then " AND " else "") ++
        (if lowerStr ((lookupGo p.order "id").getD "") = "desc" then "id < ? " else "id > ? "),
       [.int p.lastId])) ∧
    (buildIdRestrict p "current" =
      if p.pageNum = 0 ∧ p.firstId = 0 ∧ p.lastId = 0 then
        ((if p.whereString ≠ "" then " AND " else "") ++ "id > ? ", [.int 0])
      else if lowerStr ((lookupGo p.order "id").getD "") = "desc" then
        ((if p.whereString ≠ "" then " AND " else "") ++ "id <= ? AND id >= ? ",
         [.int p.firstId, .int p.lastId])
      else
        ((if p.whereString ≠ "" then " AND " else "") ++ "id >= ? AND id <= ? ",
         [.int p.firstId, .int p.lastId])) := by
  refine ⟨?_, ?_, ?_⟩ <;>
    simp only [buildIdRestrict] <;>
    norm_num <;>
    split_ifs <;>
    simp_all

/-- C8: `buildIdRestrict` reads the sort specification only through the
value stored under the `"id"` key, and treats the identity order as
descending exactly when that value lowercases to `"desc"`: for every
direction, replacing the whole order map by the single entry
`("id", "desc")` — when the stored `"id"` value equals `"desc"`
case-insensitively — or `("id", "asc")` — for every other value,
including a missing entry or a malformed string — leaves the produced
predicate and parameters unchanged.  In particular the other sort
columns never influence the predicate. -/
theorem c8_desc_selection (p : PicturePage) (d : String) :
    buildIdRestrict p d =
      buildIdRestrict
        { p with order :=
            [("id",
              if lowerStr ((lookupGo p.order "id").getD "") = "desc" then "desc" else "asc")] }
        d := by
  have hsingle : ∀ v : String, (lookupGo [("id", v)] "id").getD "" = v := fun v => rfl
  have hld : lowerStr "desc" = "desc" := by decide
  have hla : lowerStr "asc" = "asc" := by decide
  have hne : ("asc" : String) ≠ "desc" := by decide
  by_cases hdesc : lowerStr ((lookupGo p.order "id").getD "") = "desc" <;>
    simp only [buildIdRestrict, hsingle, hdesc, if_true, if_false, eq_self_iff_true] <;>
    split_ifs <;>
    simp_all

/-- C2 counterexample: the boundary check of `Next()` uses the *stored*
`totalPages`, not one recomputed from a fresh count.  `stStale` sits on
page 1 of a 20-row table (fresh page count 2, so `pageIndex =
freshTotalPages - 1` and the claim demands a boundary failure), but its
stored `totalPages` is a stale 5: `Next()` does not fail, and it
advances `pageIndex`. -/
theorem c2_counterexample :
    rsTwenty.countWhere stStale.whereString stStale.whereParams = .ok 20 ∧
    ceilFloatDiv 20 stStale.perPage = 2 ∧
    stStale.pageNum = 2 - 1 ∧
    (Next rsTwenty stStale).res = .ok [] ∧
    (Next rsTwenty stStale).st.pageNum = 2 := by
  decide

/-- C2 (amended): `Next()` fails with the boundary error and leaves the
whole state untouched — issuing no storage call — exactly when
`pageIndex = totalPages - 1` holds for the *stored* `totalPages` from
before the call; the fresh count is only taken after this check. -/
theorem c2_amended (rs : RowSource) (p : PicturePage) (h : p.pageNum = p.totalPages - 1) :
    Next rs p = ⟨.error "This's the last page, no next page yet", p, []⟩ := by
  unfold Next
  rw [if_pos h]

theorem c2_amended_witness :
    Next rsNone stLastStale =
      ⟨.error "This's the last page, no next page yet", stLastStale, []⟩ :=
  c2_amended rsNone stLastStale (by decide)

/-- C5 counterexample: on a paginator whose sort specification lacks the
identity column but which sits on page 0, `Previous()` fails with the
*boundary* error, not the configuration error the claim demands (the
`pageNum == 0` check runs first). -/
theorem c5_counterexample :
    lookupGo stNoId.order "id" = none ∧
    Previous rsNone stNoId =
      ⟨.error "This's the first page, no previous page yet", stNoId, []⟩ ∧
    "This's the first page, no previous page yet" ≠ "No id order specified in Order map" := by
  refine ⟨by decide, ?_, by decide⟩
  decide

/-- C5 (amended): without an identity-column entry every navigation call
fails before issuing any storage call (for every Row Source, the trace
is empty and the state untouched); `Current()` always fails with the
configuration error, while `Previous()` at `pageIndex = 0` and `Next()`
at the stored boundary fail with their boundary errors, the
configuration error being reported otherwise. -/
theorem c5_amended (rs : RowSource) (p : PicturePage) (h : lookupGo p.order "id" = none) :
    Current rs p = ⟨.error "No id order specified in Order map", p, []⟩ ∧
    Previous rs p =
      (if p.pageNum = 0 then ⟨.error "This's the first page, no previous page yet", p, []⟩
       else ⟨.error "No id order specified in Order map", p, []⟩) ∧
    Next rs p =
      (if p.pageNum = p.totalPages - 1 then
        ⟨.error "This's the last page, no next page yet", p, []⟩
       else ⟨.error "No id order specified in Order map", p, []⟩) := by
  have hs : (lookupGo p.order "id").isSome = false := by rw [h]; rfl
  refine ⟨?_, ?_, ?_⟩
  · unfold Current
    rw [if_pos hs]
  · unfold Previous
    by_cases h0 : p.pageNum = 0
    · rw [if_pos h0, if_pos h0]
    · rw [if_neg h0, if_neg h0, if_pos hs]
  · unfold Next
    by_cases h0 : p.pageNum = p.totalPages - 1
    · rw [if_pos h0, if_pos h0]
    · rw [if_neg h0, if_neg h0, if_pos hs]

theorem c5_amended_witness :
    Current rsNone stNoIdMid = ⟨.error "No id order specified in Order map", stNoIdMid, []⟩ ∧
    Previous rsNone stNoIdMid =
      (if stNoIdMid.pageNum = 0 then
        ⟨.error "This's the first page, no previous page yet", stNoIdMid, []⟩
       else ⟨.error "No id order specified in Order map", stNoIdMid, []⟩) ∧
    Next rsNone stNoIdMid =
      (if stNoIdMid.pageNum = stNoIdMid.totalPages - 1 then
        ⟨.error "This's the last page, no next page yet", stNoIdMid, []⟩
       else ⟨.error "No id order specified in Order map", stNoIdMid, []⟩) :=
  c5_amended rsNone stNoIdMid (by decide)

/-- Shape of a successful `buildPageCount`: count stored, `PerPage`
defaulted, `TotalPages` recomputed, everything else untouched. -/
theorem buildPageCount_ok (rs : RowSource) (p : PicturePage) (c : ℤ)
    (hcount : rs.countWhere p.whereString p.whereParams = .ok c) :
    buildPageCount rs p =
      .ok { p with
        totalItems := c
        perPage := if p.perPage = 0 then 10 else p.perPage
        totalPages := ceilFloatDiv c (if p.perPage = 0 then 10 else p.perPage) } := by
  unfold buildPageCount
  rw [hcount]
  by_cases h0 : p.perPage = 0 <;> simp [h0]

/-- A failing count aborts `buildPageCount` before any mutation. -/
theorem buildPageCount_err (rs : RowSource) (p : PicturePage) (e : String)
    (hcount : rs.countWhere p.whereString p.whereParams = .error e) :
    buildPageCount rs p = .error e := by
  unfold buildPageCount
  rw [hcount]

/-- A successful `buildPageCount` changes only `totalItems`, `perPage`
and `totalPages`. -/
theorem buildPageCount_frame (rs : RowSource) (p p' : PicturePage)
    (h : buildPageCount rs p = .ok p') :
    p'.whereString = p.whereString ∧ p'.whereParams = p.whereParams ∧
    p'.order = p.order ∧ p'.firstId = p.firstId ∧ p'.lastId = p.lastId ∧
    p'.pageNum = p.pageNum ∧ p'.orderStr = p.orderStr := by
  rcases hc : rs.countWhere p.whereString p.whereParams with e | c
  · rw [buildPageCount_err rs p e hc] at h
    exact absurd h (by simp)
  · rw [buildPageCount_ok rs p c hc] at h
    have := Except.ok.inj h
    subst this
    simp

/-- C3 counterexample: the Row Source may legally return the `int64`
count `2 ^ 53 + 1`; with page size 1, `buildPageCount` succeeds but the
binary64 arithmetic rounds the count, and the stored `totalPages`
(`2 ^ 53`) differs from `ceil(totalItems / pageSize) = 2 ^ 53 + 1`. -/
theorem c3_counterexample :
    buildPageCount rsHuge stOne =
      .ok { stOne with totalItems := 2 ^ 53 + 1, totalPages := 2 ^ 53 } ∧
    stOne.perPage = 1 ∧
    (2 ^ 53 : ℤ) ≠ (2 ^ 53 + 1 + stOne.perPage - 1) / stOne.perPage := by
  refine ⟨?_, by decide, by decide⟩
  decide

/-- C3 (amended): after any successful `buildPageCount()`, `totalItems`
equals the Row Source count for the configured filter, `pageSize` is
defaulted to 10 if it was zero, and — for every count up to `2 ^ 53`,
the range on which the binary64 arithmetic is exact (and page size up to
`2 ^ 53`) — `totalPages` is the integer ceiling `⌈totalItems /
pageSize⌉`: stated as the closed form `(c + pageSize - 1) / pageSize`
together with its two defining ceiling inequalities; in particular a
zero count gives zero pages.  Beyond `2 ^ 53` the equation can fail (see
the counterexample). -/
theorem c3_amended (rs : RowSource) (p : PicturePage) (c : ℤ)
    (hcount : rs.countWhere p.whereString p.whereParams = .ok c)
    (hc0 : 0 ≤ c) (hc : c ≤ 2 ^ 53) (hp0 : 0 ≤ p.perPage) (hp : p.perPage ≤ 2 ^ 53) :
    buildPageCount rs p =
      .ok { p with
        totalItems := c
        perPage := if p.perPage = 0 then 10 else p.perPage
        totalPages :=
          (c + (if p.perPage = 0 then 10 else p.perPage) - 1) /
            (if p.perPage = 0 then 10 else p.perPage) } ∧
    c ≤ (c + (if p.perPage = 0 then 10 else p.perPage) - 1) /
          (if p.perPage = 0 then 10 else p.perPage) *
        (if p.perPage = 0 then 10 else p.perPage) ∧
    ((c + (if p.perPage = 0 then 10 else p.perPage) - 1) /
          (if p.perPage = 0 then 10 else p.perPage) - 1) *
        (if p.perPage = 0 then 10 else p.perPage) < c ∧
    (c = 0 →
      (c + (if p.perPage = 0 then 10 else p.perPage) - 1) /
        (if p.perPage = 0 then 10 else p.perPage) = 0) := by
  have hpe1 : 1 ≤ (if p.perPage = 0 then 10 else p.perPage) := by
    split_ifs <;> omega
  have hpe2 : (if p.perPage = 0 then 10 else p.perPage) ≤ 2 ^ 53 := by
    split_ifs <;> omega
  obtain ⟨s1, s2⟩ := ceil_div_spec c (if p.perPage = 0 then 10 else p.perPage) hpe1
  refine ⟨?_, s1, s2, fun hz => ?_⟩
  · rw [buildPageCount_ok rs p c hcount, ceilFloatDiv_eq hc0 hc hpe1 hpe2]
  · subst hz
    exact Int.ediv_eq_zero_of_lt (by omega) (by omega)

theorem c3_amended_witness :
    buildPageCount rsFindFails stFresh =
      .ok { stFresh with
        totalItems := 25
        perPage := if stFresh.perPage = 0 then 10 else stFresh.perPage
        totalPages :=
          (25 + (if stFresh.perPage = 0 then 10 else stFresh.perPage) - 1) /
            (if stFresh.perPage = 0 then 10 else stFresh.perPage) } ∧
    (25 : ℤ) ≤ (25 + (if stFresh.perPage = 0 then 10 else stFresh.perPage) - 1) /
          (if stFresh.perPage = 0 then 10 else stFresh.perPage) *
        (if stFresh.perPage = 0 then 10 else stFresh.perPage) ∧
    ((25 + (if stFresh.perPage = 0 then 10 else stFresh.perPage) - 1) /
          (if stFresh.perPage = 0 then 10 else stFresh.perPage) - 1) *
        (if stFresh.perPage = 0 then 10 else stFresh.perPage) < 25 ∧
    ((25 : ℤ) = 0 →
      (25 + (if stFresh.perPage = 0 then 10 else stFresh.perPage) - 1) /
        (if stFresh.perPage = 0 then 10 else stFresh.perPage) = 0) :=
  c3_amended rsFindFails stFresh 25 (by decide) (by decide) (by decide) (by decide) (by decide)

/-- Every run of `Current` takes one of four paths: configuration
error, count error, find error, or success; the returned state and the
trace are determined accordingly. -/
theorem Current_run (rs : RowSource) (p : PicturePage) :
    Current rs p = ⟨.error "No id order specified in Order map", p, []⟩ ∨
    (∃ e, Current rs p =
      ⟨.error ("Calculate page count error: " ++ e), p, [.count p.whereString p.whereParams]⟩) ∨
    (∃ p1, buildPageCount rs p = .ok p1 ∧
      (let p2 := if p1.orderStr = "" then buildOrder p1 else p1
       let idp := buildIdRestrict p2 "current"
       let w := navWhereStr p2 idp.fst
       let ps := p2.whereParams ++ idp.snd
       (∃ e, rs.findWhere w ps = .error e ∧
          Current rs p = ⟨.error e, p2, [.count p.whereString p.whereParams, .find w ps]⟩) ∨
       (∃ pics, rs.findWhere w ps = .ok pics ∧
          Current rs p =
            ⟨.ok pics,
             match pics with
             | [] => p2
             | x :: _ => { p2 with firstId := x.id, lastId := (pics.getLast?.getD x).id },
             [.count p.whereString p.whereParams, .find w ps]⟩))) := by
  unfold Current
  by_cases hid : (lookupGo p.order "id").isSome = false
  · rw [if_pos hid]
    left
    rfl
  · rw [if_neg hid]
    rcases hbc : buildPageCount rs p with e1 | p1
    · right; left
      exact ⟨e1, rfl⟩
    · right; right
      refine ⟨p1, rfl, ?_⟩
      simp only []
      set p2 := if p1.orderStr = "" then buildOrder p1 else p1 with hp2
      set idp := buildIdRestrict p2 "current" with hidp
      set w := navWhereStr p2 idp.fst with hw
      set ps := p2.whereParams ++ idp.snd with hps
      rcases hfind : rs.findWhere w ps with e2 | pics
      · exact Or.inl ⟨e2, rfl, rfl⟩
      · exact Or.inr ⟨pics, rfl, rfl⟩

/-- Every run of `Previous` takes one of five paths: boundary error,
configuration error, count error, find error, or success (which
decrements `pageNum`). -/
theorem Previous_run (rs : RowSource) (p : PicturePage) :
    Previous rs p = ⟨.error "This's the first page, no previous page yet", p, []⟩ ∨
    Previous rs p = ⟨.error "No id order specified in Order map", p, []⟩ ∨
    (∃ e, Previous rs p =
      ⟨.error ("Calculate page count error: " ++ e), p, [.count p.whereString p.whereParams]⟩) ∨
    (∃ p1, buildPageCount rs p = .ok p1 ∧
      (let p2 := if p1.orderStr = "" then buildOrder p1 else p1
       let idp := buildIdRestrict p2 "previous"
       let w := navWhereStr p2 idp.fst
       let ps := p2.whereParams ++ idp.snd
       (∃ e, rs.findWhere w ps = .error e ∧
          Previous rs p = ⟨.error e, p2, [.count p.whereString p.whereParams, .find w ps]⟩) ∨
       (∃ pics, rs.findWhere w ps = .ok pics ∧
          Previous rs p =
            ⟨.ok pics,
             { (match pics with
                | [] => p2
                | x :: _ => { p2 with firstId := x.id, lastId := (pics.getLast?.getD x).id }) with
               pageNum :=
                (match pics with
                 | [] => p2
                 | x :: _ =>
                   { p2 with firstId := x.id, lastId := (pics.getLast?.getD x).id }).pageNum - 1 },
             [.count p.whereString p.whereParams, .find w ps]⟩))) := by
  unfold Previous
  by_cases h0 : p.pageNum = 0
  · rw [if_pos h0]
    left
    rfl
  · rw [if_neg h0]
    by_cases hid : (lookupGo p.order "id").isSome = false
    · rw [if_pos hid]
      right; left
      rfl
    · rw [if_neg hid]
      rcases hbc : buildPageCount rs p with e1 | p1
      · right; right; left
        exact ⟨e1, rfl⟩
      · right; right; right
        refine ⟨p1, rfl, ?_⟩
        simp only []
        set p2 := if p1.orderStr = "" then buildOrder p1 else p1 with hp2
        set idp := buildIdRestrict p2 "previous" with hidp
        set w := navWhereStr p2 idp.fst with hw
        set ps := p2.whereParams ++ idp.snd with hps
        rcases hfind : rs.findWhere w ps with e2 | pics
        · exact Or.inl ⟨e2, rfl, rfl⟩
        · exact Or.inr ⟨pics, rfl, rfl⟩

/-- Every run of `Next` takes one of five paths: boundary error (against
the stored `totalPages`), configuration error, count error, find error,
or success (which increments `pageNum`). -/
theorem Next_run (rs : RowSource) (p : PicturePage) :
    Next rs p = ⟨.error "This's the last page, no next page yet", p, []⟩ ∨
    Next rs p = ⟨.error "No id order specified in Order map", p, []⟩ ∨
    (∃ e, Next rs p =
      ⟨.error ("Calculate page count error: " ++ e), p, [.count p.whereString p.whereParams]⟩) ∨
    (∃ p1, buildPageCount rs p = .ok p1 ∧
      (let p2 := if p1.orderStr = "" then buildOrder p1 else p1
       let idp := buildIdRestrict p2 "next"
       let w := navWhereStr p2 idp.fst
       let ps := p2.whereParams ++ idp.snd
       (∃ e, rs.findWhere w ps = .error e ∧
          Next rs p = ⟨.error e, p2, [.count p.whereString p.whereParams, .find w ps]⟩) ∨
       (∃ pics, rs.findWhere w ps = .ok pics ∧
          Next rs p =
            ⟨.ok pics,
             { (match pics with
                | [] => p2
                | x :: _ => { p2 with firstId := x.id, lastId := (pics.getLast?.getD x).id }) with
               pageNum :=
                (match pics with
                 | [] => p2
                 | x :: _ =>
                   { p2 with firstId := x.id, lastId := (pics.getLast?.getD x).id }).pageNum + 1 },
             [.count p.whereString p.whereParams, .find w ps]⟩))) := by
  unfold Next
  by_cases h0 : p.pageNum = p.totalPages - 1
  · rw [if_pos h0]
    left
    rfl
  · rw [if_neg h0]
    by_cases hid : (lookupGo p.order "id").isSome = false
    · rw [if_pos hid]
      right; left
      rfl
    · rw [if_neg hid]
      rcases hbc : buildPageCount rs p with e1 | p1
      · right; right; left
        exact ⟨e1, rfl⟩
      · right; right; right
        refine ⟨p1, rfl, ?_⟩
        simp only []
        set p2 := if p1.orderStr = "" then buildOrder p1 else p1 with hp2
        set idp := buildIdRestrict p2 "next" with hidp
        set w := navWhereStr p2 idp.fst with hw
        set ps := p2.whereParams ++ idp.snd with hps
        rcases hfind : rs.findWhere w ps with e2 | pics
        · exact Or.inl ⟨e2, rfl, rfl⟩
        · exact Or.inr ⟨pics, rfl, rfl⟩

/-- C4 counterexample: a Row Source error from the find query is
returned as a failure by `Current()`, yet `totalItems` (and
`totalPages`) have already been updated by the preceding successful
count — the state is not identical to the pre-call state. -/
theorem c4_counterexample :
    (Current rsFindFails stFresh).res = .error "connection lost" ∧
    (Current rsFindFails stFresh).st.totalItems = 25 ∧
    stFresh.totalItems = 0 := by
  refine ⟨?_, ?_, by decide⟩ <;> decide

/-- C4 (amended): every failing navigation call leaves `firstId`,
`lastId` and `pageIndex` unchanged; a failure that occurs before the
find query is issued (configuration error, boundary error, or a count
error — all the cases with at most one storage call in the trace)
leaves the entire Paginator state unchanged.  Only a find-query failure
— which the counterexample shows can leave `totalItems`, `totalPages`,
a defaulted `pageSize` and the cached order string updated — escapes the
full frame condition. -/
theorem c4_amended (rs : RowSource) (p : PicturePage) :
    (∀ e, (Current rs p).res = .error e →
      ((Current rs p).st.firstId = p.firstId ∧ (Current rs p).st.lastId = p.lastId ∧
        (Current rs p).st.pageNum = p.pageNum) ∧
      ((Current rs p).calls.length ≤ 1 → (Current rs p).st = p)) ∧
    (∀ e, (Previous rs p).res = .error e →
      ((Previous rs p).st.firstId = p.firstId ∧ (Previous rs p).st.lastId = p.lastId ∧
        (Previous rs p).st.pageNum = p.pageNum) ∧
      ((Previous rs p).calls.length ≤ 1 → (Previous rs p).st = p)) ∧
    (∀ e, (Next rs p).res = .error e →
      ((Next rs p).st.firstId = p.firstId ∧ (Next rs p).st.lastId = p.lastId ∧
        (Next rs p).st.pageNum = p.pageNum) ∧
      ((Next rs p).calls.length ≤ 1 → (Next rs p).st = p)) := by
  refine ⟨?_, ?_, ?_⟩
  · rcases Current_run rs p with h | ⟨e1, h⟩ | ⟨p1, hbc, hrest⟩
    · rw [h]
      intro e he
      simp
    · rw [h]
      intro e he
      simp
    · obtain ⟨f1, f2, f3, f4, f5, f6, f7⟩ := buildPageCount_frame rs p p1 hbc
      simp only [] at hrest
      rcases hrest with ⟨e2, hfind, heq⟩ | ⟨pics, hfind, heq⟩
      · rw [heq]
        intro e he
        constructor
        · by_cases ho : p1.orderStr = "" <;> simp [ho, buildOrder, f4, f5, f6]
        · intro hlen
          simp at hlen
      · rw [heq]
        intro e he
        simp at he
  · rcases Previous_run rs p with h | h | ⟨e1, h⟩ | ⟨p1, hbc, hrest⟩
    · rw [h]
      intro e he
      simp
    · rw [h]
      intro e he
      simp
    · rw [h]
      intro e he
      simp
    · obtain ⟨f1, f2, f3, f4, f5, f6, f7⟩ := buildPageCount_frame rs p p1 hbc
      simp only [] at hrest
      rcases hrest with ⟨e2, hfind, heq⟩ | ⟨pics, hfind, heq⟩
      · rw [heq]
        intro e he
        constructor
        · by_cases ho : p1.orderStr = "" <;> simp [ho, buildOrder, f4, f5, f6]
        · intro hlen
          simp at hlen
      · rw [heq]
        intro e he
        simp at he
  · rcases Next_run rs p with h | h | ⟨e1, h⟩ | ⟨p1, hbc, hrest⟩
    · rw [h]
      intro e he
      simp
    · rw [h]
      intro e he
      simp
    · rw [h]
      intro e he
      simp
    · obtain ⟨f1, f2, f3, f4, f5, f6, f7⟩ := buildPageCount_frame rs p p1 hbc
      simp only [] at hrest
      rcases hrest with ⟨e2, hfind, heq⟩ | ⟨pics, hfind, heq⟩
      · rw [heq]
        intro e he
        constructor
        · by_cases ho : p1.orderStr = "" <;> simp [ho, buildOrder, f4, f5, f6]
        · intro hlen
          simp at hlen
      · rw [heq]
        intro e he
        simp at he

theorem c4_amended_witness :
    (Current rsFindFails stFresh).st.firstId = stFresh.firstId ∧
    (Current rsFindFails stFresh).st.lastId = stFresh.lastId ∧
    (Current rsFindFails stFresh).st.pageNum = stFresh.pageNum :=
  ((c4_amended rsFindFails stFresh).1 "connection lost" (by decide)).1

/-- C9: on a successful navigation call whose Row Source returns an
empty row set, `firstId` and `lastId` are left unchanged while `pageNum`
is still decremented by `Previous` and incremented by `Next` (and left
alone by `Current`); when at least one row is returned, `firstId` is set
to the first returned row's id and `lastId` to the last returned row's
id. -/
theorem c9_empty_page_bounds (rs : RowSource) (p : PicturePage) :
    (∀ pics, (Current rs p).res = .ok pics →
      (Current rs p).st.pageNum = p.pageNum ∧
      (pics = [] → (Current rs p).st.firstId = p.firstId ∧
        (Current rs p).st.lastId = p.lastId) ∧
      (∀ x xs, pics = x :: xs → (Current rs p).st.firstId = x.id ∧
        (Current rs p).st.lastId = ((x :: xs).getLast?.getD x).id)) ∧
    (∀ pics, (Previous rs p).res = .ok pics →
      (Previous rs p).st.pageNum = p.pageNum - 1 ∧
      (pics = [] → (Previous rs p).st.firstId = p.firstId ∧
        (Previous rs p).st.lastId = p.lastId) ∧
      (∀ x xs, pics = x :: xs → (Previous rs p).st.firstId = x.id ∧
        (Previous rs p).st.lastId = ((x :: xs).getLast?.getD x).id)) ∧
    (∀ pics, (Next rs p).res = .ok pics →
      (Next rs p).st.pageNum = p.pageNum + 1 ∧
      (pics = [] → (Next rs p).st.firstId = p.firstId ∧
        (Next rs p).st.lastId = p.lastId) ∧
      (∀ x xs, pics = x :: xs → (Next rs p).st.firstId = x.id ∧
        (Next rs p).st.lastId = ((x :: xs).getLast?.getD x).id)) := by
  refine ⟨?_, ?_, ?_⟩
  · rcases Current_run rs p with h | ⟨e1, h⟩ | ⟨p1, hbc, hrest⟩
    · rw [h]
      intro pics hp
      exact Except.noConfusion hp
    · rw [h]
      intro pics hp
      exact Except.noConfusion hp
    · obtain ⟨f1, f2, f3, f4, f5, f6, f7⟩ := buildPageCount_frame rs p p1 hbc
      simp only [] at hrest
      rcases hrest with ⟨e2, hfind, heq⟩ | ⟨pics0, hfind, heq⟩
      · rw [heq]
        intro pics hp
        exact Except.noConfusion hp
      · rw [heq]
        intro pics hp
        have hpe : pics0 = pics := Except.ok.inj hp
        subst hpe
        rcases pics0 with _ | ⟨x, xs⟩
        · refine ⟨?_, fun _ => ⟨?_, ?_⟩, ?_⟩
          · by_cases ho : p1.orderStr = "" <;> simp [ho, buildOrder, f6]
          · by_cases ho : p1.orderStr = "" <;> simp [ho, buildOrder, f4]
          · by_cases ho : p1.orderStr = "" <;> simp [ho, buildOrder, f5]
          · intro x xs hcontra
            exact List.noConfusion hcontra
        · refine ⟨?_, fun hcontra => List.noConfusion hcontra, ?_⟩
          · by_cases ho : p1.orderStr = "" <;> simp [ho, buildOrder, f6]
          · intro y ys hyy
            obtain ⟨hxy, hxsys⟩ := List.cons.inj hyy
            subst hxy
            subst hxsys
            simp
  · rcases Previous_run rs p with h | h | ⟨e1, h⟩ | ⟨p1, hbc, hrest⟩
    · rw [h]
      intro pics hp
      exact Except.noConfusion hp
    · rw [h]
      intro pics hp
      exact Except.noConfusion hp
    · rw [h]
      intro pics hp
      exact Except.noConfusion hp
    · obtain ⟨f1, f2, f3, f4, f5, f6, f7⟩ := buildPageCount_frame rs p p1 hbc
      simp only [] at hrest
      rcases hrest with ⟨e2, hfind, heq⟩ | ⟨pics0, hfind, heq⟩
      · rw [heq]
        intro pics hp
        exact Except.noConfusion hp
      · rw [heq]
        intro pics hp
        have hpe : pics0 = pics := Except.ok.inj hp
        subst hpe
        rcases pics0 with _ | ⟨x, xs⟩
        · refine ⟨?_, fun _ => ⟨?_, ?_⟩, ?_⟩
          · by_cases ho : p1.orderStr = "" <;> simp [ho, buildOrder, f6]
          · by_cases ho : p1.orderStr = "" <;> simp [ho, buildOrder, f4]
          · by_cases ho : p1.orderStr = "" <;> simp [ho, buildOrder, f5]
          · intro x xs hcontra
            exact List.noConfusion hcontra
        · refine ⟨?_, fun hcontra => List.noConfusion hcontra, ?_⟩
          · by_cases ho : p1.orderStr = "" <;> simp [ho, buildOrder, f6]
          · intro y ys hyy
            obtain ⟨hxy, hxsys⟩ := List.cons.inj hyy
            subst hxy
            subst hxsys
            simp
  · rcases Next_run rs p with h | h | ⟨e1, h⟩ | ⟨p1, hbc, hrest⟩
    · rw [h]
      intro pics hp
      exact Except.noConfusion hp
    · rw [h]
      intro pics hp
      exact Except.noConfusion hp
    · rw [h]
      intro pics hp
      exact Except.noConfusion hp
    · obtain ⟨f1, f2, f3, f4, f5, f6, f7⟩ := buildPageCount_frame rs p p1 hbc
      simp only [] at hrest
      rcases hrest with ⟨e2, hfind, heq⟩ | ⟨pics0, hfind, heq⟩
      · rw [heq]
        intro pics hp
        exact Except.noConfusion hp
      · rw [heq]
        intro pics hp
        have hpe : pics0 = pics := Except.ok.inj hp
        subst hpe
        rcases pics0 with _ | ⟨x, xs⟩
        · refine ⟨?_, fun _ => ⟨?_, ?_⟩, ?_⟩
          · by_cases ho : p1.orderStr = "" <;> simp [ho, buildOrder, f6]
          · by_cases ho : p1.orderStr = "" <;> simp [ho, buildOrder, f4]
          · by_cases ho : p1.orderStr = "" <;> simp [ho, buildOrder, f5]
          · intro x xs hcontra
            exact List.noConfusion hcontra
        · refine ⟨?_, fun hcontra => List.noConfusion hcontra, ?_⟩
          · by_cases ho : p1.orderStr = "" <;> simp [ho, buildOrder, f6]
          · intro y ys hyy
            obtain ⟨hxy, hxsys⟩ := List.cons.inj hyy
            subst hxy
            subst hxsys
            simp

theorem c9_witness :
    (Previous rsEmptyFinds stPage1).st.pageNum = stPage1.pageNum - 1 ∧
    (Previous rsEmptyFinds stPage1).st.firstId = stPage1.firstId ∧
    (Previous rsEmptyFinds stPage1).st.lastId = stPage1.lastId := by
  obtain ⟨h1, h2, h3⟩ := (c9_empty_page_bounds rsEmptyFinds stPage1).2.1 [] (by decide)
  exact ⟨h1, (h2 rfl).1, (h2 rfl).2⟩

/-- Order-string caching facts for `Current`: a nonempty cached clause
is preserved and is the ORDER BY segment of any issued find query; an
empty cache is either left empty (early failure) or built once from the
current map. -/
theorem Current_orderStr_frame (rs : RowSource) (p : PicturePage) :
    (p.orderStr ≠ "" →
      (Current rs p).st.orderStr = p.orderStr ∧
      (∀ w ps, StorageCall.find w ps ∈ (Current rs p).calls →
        ∃ idStr lim,
          w = p.whereString ++ " " ++ idStr ++ " " ++ p.orderStr ++ " LIMIT " ++ lim)) ∧
    (p.orderStr = "" →
      (Current rs p).st.orderStr = "" ∨ (Current rs p).st.orderStr = buildOrderStr p.order) := by
  rcases Current_run rs p with h | ⟨e1, h⟩ | ⟨p1, hbc, hrest⟩
  · rw [h]
    constructor
    · intro hord
      refine ⟨rfl, ?_⟩
      intro w ps hmem
      simp at hmem
    · intro h0
      left
      exact h0
  · rw [h]
    constructor
    · intro hord
      refine ⟨rfl, ?_⟩
      intro w ps hmem
      simp at hmem
    · intro h0
      left
      exact h0
  · obtain ⟨f1, f2, f3, f4, f5, f6, f7⟩ := buildPageCount_frame rs p p1 hbc
    simp only [] at hrest
    rcases hrest with ⟨e2, hfind, heq⟩ | ⟨pics, hfind, heq⟩
    · rw [heq]
      constructor
      · intro hord
        have hne : ¬ p1.orderStr = "" := by rw [f7]; exact hord
        constructor
        · rw [if_neg hne]
          exact f7
        · intro w' ps' hmem
          simp only [List.mem_cons, List.mem_singleton, List.not_mem_nil, or_false] at hmem
          rcases hmem with hmem | hmem
          · exact absurd hmem (by simp)
          · obtain ⟨hw', hps'⟩ := StorageCall.find.inj hmem
            subst hw'
            refine ⟨(buildIdRestrict (if p1.orderStr = "" then buildOrder p1 else p1)
              "current").fst, toString p1.perPage, ?_⟩
            rw [if_neg hne]
            simp only [navWhereStr]
            rw [f1, f7]
      · intro h0
        right
        have hz : p1.orderStr = "" := by rw [f7, h0]
        rw [if_pos hz]
        simp [buildOrder, f3]
    · rw [heq]
      constructor
      · intro hord
        have hne : ¬ p1.orderStr = "" := by rw [f7]; exact hord
        constructor
        · rcases pics with _ | ⟨x, xs⟩
          · rw [if_neg hne]
            exact f7
          · rw [if_neg hne]
            simp [f7]
        · intro w' ps' hmem
          simp only [List.mem_cons, List.mem_singleton, List.not_mem_nil, or_false] at hmem
          rcases hmem with hmem | hmem
          · exact absurd hmem (by simp)
          · obtain ⟨hw', hps'⟩ := StorageCall.find.inj hmem
            subst hw'
            refine ⟨(buildIdRestrict (if p1.orderStr = "" then buildOrder p1 else p1)
              "current").fst, toString p1.perPage, ?_⟩
            rw [if_neg hne]
            simp only [navWhereStr]
            rw [f1, f7]
      · intro h0
        right
        have hz : p1.orderStr = "" := by rw [f7, h0]
        rcases pics with _ | ⟨x, xs⟩
        · rw [if_pos hz]
          simp [buildOrder, f3]
        · rw [if_pos hz]
          simp [buildOrder, f3]

/-- Order-string caching facts for `Previous`, as for `Current`. -/
theorem Previous_orderStr_frame (rs : RowSource) (p : PicturePage) :
    (p.orderStr ≠ "" →
      (Previous rs p).st.orderStr = p.orderStr ∧
      (∀ w ps, StorageCall.find w ps ∈ (Previous rs p).calls →
        ∃ idStr lim,
          w = p.whereString ++ " " ++ idStr ++ " " ++ p.orderStr ++ " LIMIT " ++ lim)) ∧
    (p.orderStr = "" →
      (Previous rs p).st.orderStr = "" ∨ (Previous rs p).st.orderStr = buildOrderStr p.order) := by
  rcases Previous_run rs p with h | h | ⟨e1, h⟩ | ⟨p1, hbc, hrest⟩
  · rw [h]
    exact ⟨fun hord => ⟨rfl, fun w ps hmem => by simp at hmem⟩, fun h0 => Or.inl h0⟩
  · rw [h]
    exact ⟨fun hord => ⟨rfl, fun w ps hmem => by simp at hmem⟩, fun h0 => Or.inl h0⟩
  · rw [h]
    exact ⟨fun hord => ⟨rfl, fun w ps hmem => by simp at hmem⟩, fun h0 => Or.inl h0⟩
  · obtain ⟨f1, f2, f3, f4, f5, f6, f7⟩ := buildPageCount_frame rs p p1 hbc
    simp only [] at hrest
    rcases hrest with ⟨e2, hfind, heq⟩ | ⟨pics, hfind, heq⟩
    · rw [heq]
      constructor
      · intro hord
        have hne : ¬ p1.orderStr = "" := by rw [f7]; exact hord
        constructor
        · rw [if_neg hne]
          exact f7
        · intro w' ps' hmem
          simp only [List.mem_cons, List.mem_singleton, List.not_mem_nil, or_false] at hmem
          rcases hmem with hmem | hmem
          · exact absurd hmem (by simp)
          · obtain ⟨hw', hps'⟩ := StorageCall.find.inj hmem
            subst hw'
            refine ⟨(buildIdRestrict (if p1.orderStr = "" then buildOrder p1 else p1)
              "previous").fst, toString p1.perPage, ?_⟩
            rw [if_neg hne]
            simp only [navWhereStr]
            rw [f1, f7]
      · intro h0
        right
        have hz : p1.orderStr = "" := by rw [f7, h0]
        rw [if_pos hz]
        simp [buildOrder, f3]
    · rw [heq]
      constructor
      · intro hord
        have hne : ¬ p1.orderStr = "" := by rw [f7]; exact hord
        constructor
        · rcases pics with _ | ⟨x, xs⟩
          · rw [if_neg hne]
            simp [f7]
          · rw [if_neg hne]
            simp [f7]
        · intro w' ps' hmem
          simp only [List.mem_cons, List.mem_singleton, List.not_mem_nil, or_false] at hmem
          rcases hmem with hmem | hmem
          · exact absurd hmem (by simp)
          · obtain ⟨hw', hps'⟩ := StorageCall.find.inj hmem
            subst hw'
            refine ⟨(buildIdRestrict (if p1.orderStr = "" then buildOrder p1 else p1)
              "previous").fst, toString p1.perPage, ?_⟩
            rw [if_neg hne]
            simp only [navWhereStr]
            rw [f1, f7]
      · intro h0
        right
        have hz : p1.orderStr = "" := by rw [f7, h0]
        rcases pics with _ | ⟨x, xs⟩
        · rw [if_pos hz]
          simp [buildOrder, f3]
        · rw [if_pos hz]
          simp [buildOrder, f3]

/-- Order-string caching facts for `Next`, as for `Current`. -/
theorem Next_orderStr_frame (rs : RowSource) (p : PicturePage) :
    (p.orderStr ≠ "" →
      (Next rs p).st.orderStr = p.orderStr ∧
      (∀ w ps, StorageCall.find w ps ∈ (Next rs p).calls →
        ∃ idStr lim,
          w = p.whereString ++ " " ++ idStr ++ " " ++ p.orderStr ++ " LIMIT " ++ lim)) ∧
    (p.orderStr = "" →
      (Next rs p).st.orderStr = "" ∨ (Next rs p).st.orderStr = buildOrderStr p.order) := by
  rcases Next_run rs p with h | h | ⟨e1, h⟩ | ⟨p1, hbc, hrest⟩
  · rw [h]
    exact ⟨fun hord => ⟨rfl, fun w ps hmem => by simp at hmem⟩, fun h0 => Or.inl h0⟩
  · rw [h]
    exact ⟨fun hord => ⟨rfl, fun w ps hmem => by simp at hmem⟩, fun h0 => Or.inl h0⟩
  · rw [h]
    exact ⟨fun hord => ⟨rfl, fun w ps hmem => by simp at hmem⟩, fun h0 => Or.inl h0⟩
  · obtain ⟨f1, f2, f3, f4, f5, f6, f7⟩ := buildPageCount_frame rs p p1 hbc
    simp only [] at hrest
    rcases hrest with ⟨e2, hfind, heq⟩ | ⟨pics, hfind, heq⟩
    · rw [heq]
      constructor
      · intro hord
        have hne : ¬ p1.orderStr = "" := by rw [f7]; exact hord
        constructor
        · rw [if_neg hne]
          exact f7
        · intro w' ps' hmem
          simp only [List.mem_cons, List.mem_singleton, List.not_mem_nil, or_false] at hmem
          rcases hmem with hmem | hmem
          · exact absurd hmem (by simp)
          · obtain ⟨hw', hps'⟩ := StorageCall.find.inj hmem
            subst hw'
            refine ⟨(buildIdRestrict (if p1.orderStr = "" then buildOrder p1 else p1)
              "next").fst, toString p1.perPage, ?_⟩
            rw [if_neg hne]
            simp only [navWhereStr]
            rw [f1, f7]
      · intro h0
        right
        have hz : p1.orderStr = "" := by rw [f7, h0]
        rw [if_pos hz]
        simp [buildOrder, f3]
    · rw [heq]
      constructor
      · intro hord
        have hne : ¬ p1.orderStr = "" := by rw [f7]; exact hord
        constructor
        · rcases pics with _ | ⟨x, xs⟩
          · rw [if_neg hne]
            simp [f7]
          · rw [if_neg hne]
            simp [f7]
        · intro w' ps' hmem
          simp only [List.mem_cons, List.mem_singleton, List.not_mem_nil, or_false] at hmem
          rcases hmem with hmem | hmem
          · exact absurd hmem (by simp)
          · obtain ⟨hw', hps'⟩ := StorageCall.find.inj hmem
            subst hw'
            refine ⟨(buildIdRestrict (if p1.orderStr = "" then buildOrder p1 else p1)
              "next").fst, toString p1.perPage, ?_⟩
            rw [if_neg hne]
            simp only [navWhereStr]
            rw [f1, f7]
      · intro h0
        right
        have hz : p1.orderStr = "" := by rw [f7, h0]
        rcases pics with _ | ⟨x, xs⟩
        · rw [if_pos hz]
          simp [buildOrder, f3]
        · rw [if_pos hz]
          simp [buildOrder, f3]

/-- C10: the rendered ORDER BY clause is built at most once per
Paginator.  Once `orderStr` is nonempty, every navigation call preserves
it unchanged, and the ORDER BY segment of every find query issued is
exactly the cached clause — so a later mutation of the sort-spec map
cannot affect the ORDER BY clause used by later calls.  While `orderStr`
is empty, a navigation call either leaves it empty (an early failure) or
builds it, once, from the current map. -/
theorem c10_order_built_once (rs : RowSource) (p : PicturePage) :
    (p.orderStr ≠ "" →
      ((Current rs p).st.orderStr = p.orderStr ∧
       (Previous rs p).st.orderStr = p.orderStr ∧
       (Next rs p).st.orderStr = p.orderStr) ∧
      (∀ w ps,
        (StorageCall.find w ps ∈ (Current rs p).calls ∨
         StorageCall.find w ps ∈ (Previous rs p).calls ∨
         StorageCall.find w ps ∈ (Next rs p).calls) →
        ∃ idStr lim,
          w = p.whereString ++ " " ++ idStr ++ " " ++ p.orderStr ++ " LIMIT " ++ lim)) ∧
    (p.orderStr = "" →
      ((Current rs p).st.orderStr = "" ∨ (Current rs p).st.orderStr = buildOrderStr p.order) ∧
      ((Previous rs p).st.orderStr = "" ∨
        (Previous rs p).st.orderStr = buildOrderStr p.order) ∧
      ((Next rs p).st.orderStr = "" ∨ (Next rs p).st.orderStr = buildOrderStr p.order)) := by
  obtain ⟨c1, c2⟩ := Current_orderStr_frame rs p
  obtain ⟨p1, p2⟩ := Previous_orderStr_frame rs p
  obtain ⟨n1, n2⟩ := Next_orderStr_frame rs p
  constructor
  · intro hord
    refine ⟨⟨(c1 hord).1, (p1 hord).1, (n1 hord).1⟩, ?_⟩
    intro w ps hmem
    rcases hmem with hmem | hmem | hmem
    · exact (c1 hord).2 w ps hmem
    · exact (p1 hord).2 w ps hmem
    · exact (n1 hord).2 w ps hmem
  · intro h0
    exact ⟨c2 h0, p2 h0, n2 h0⟩

theorem c10_witness :
    (Current rsTable25 stCached).st.orderStr = stCached.orderStr ∧
    (Previous rsTable25 stCached).st.orderStr = stCached.orderStr ∧
    (Next rsTable25 stCached).st.orderStr = stCached.orderStr :=
  ((c10_order_built_once rsTable25 stCached).1 (by decide)).1

/-- C6: `GetPage(direction)` dispatches `"previous"`/`"current"`/
`"next"` to the corresponding operation, fails with the
invalid-argument error on any other direction string, and swallows the
delegated operation's error: on a delegated failure it returns nil rows
(`[]`) with a nil error (`.ok`), never surfacing the failure. -/
theorem c6_getPage_dispatch (rs : RowSource) (p : PicturePage) :
    GetPage rs p "previous" =
      ⟨.ok (swallowRows (Previous rs p).res), (Previous rs p).st, (Previous rs p).calls⟩ ∧
    GetPage rs p "next" =
      ⟨.ok (swallowRows (Next rs p).res), (Next rs p).st, (Next rs p).calls⟩ ∧
    GetPage rs p "current" =
      ⟨.ok (swallowRows (Current rs p).res), (Current rs p).st, (Current rs p).calls⟩ ∧
    (∀ d, d ≠ "previous" → d ≠ "next" → d ≠ "current" →
      GetPage rs p d =
        ⟨.error "Error: wrong dircetion! None of previous, current or next!", p, []⟩) ∧
    (∀ e, (Previous rs p).res = .error e → (GetPage rs p "previous").res = .ok []) ∧
    (∀ e, (Next rs p).res = .error e → (GetPage rs p "next").res = .ok []) ∧
    (∀ e, (Current rs p).res = .error e → (GetPage rs p "current").res = .ok []) := by
  refine ⟨rfl, rfl, rfl, ?_, ?_, ?_, ?_⟩
  · intro d h1 h2 h3
    unfold GetPage
    rw [if_neg h1, if_neg h2, if_neg h3]
  · intro e he
    show (GetPage rs p "previous").res = .ok []
    unfold GetPage
    rw [if_pos rfl]
    simp [he, swallowRows]
  · intro e he
    unfold GetPage
    rw [if_neg (by decide), if_pos rfl]
    simp [he, swallowRows]
  · intro e he
    unfold GetPage
    rw [if_neg (by decide), if_neg (by decide), if_pos rfl]
    simp [he, swallowRows]

theorem c6_witness :
    GetPage rsNone stFresh "sideways" =
      ⟨.error "Error: wrong dircetion! None of previous, current or next!", stFresh, []⟩ ∧
    (GetPage rsNone stFresh "current").res = .ok [] := by
  refine ⟨(c6_getPage_dispatch rsNone stFresh).2.2.2.1 "sideways" (by decide) (by decide)
    (by decide), ?_⟩
  exact (c6_getPage_dispatch rsNone stFresh).2.2.2.2.2.2
    "Calculate page count error: unexpected query" (by decide)

/-- C7 (code bug): a successful `Next()` followed by a successful
`Previous()` does not restore the cursor bounds.  On the 25-row table
(ids 1..25, ascending id order, page size 10), starting from page 1
(`firstId = 11`, `lastId = 20`): `Next()` loads rows 21..25, and the
following `Previous()` issues `id < 21 ORDER BY id asc LIMIT 10`, which
returns rows 1..10 — the *first* page, not the starting page — leaving
`firstId = 1`, `lastId = 10` instead of the original 11/20. -/
theorem c7_next_previous_cycle_bug :
    stPage1.firstId = 11 ∧ stPage1.lastId = 20 ∧
    (Next rsTable25 stPage1).res = .ok [pic 21, pic 22, pic 23, pic 24, pic 25] ∧
    (Next rsTable25 stPage1).st.firstId = 21 ∧
    (Next rsTable25 stPage1).st.lastId = 25 ∧
    (Previous rsTable25 (Next rsTable25 stPage1).st).res =
      .ok [pic 1, pic 2, pic 3, pic 4, pic 5, pic 6, pic 7, pic 8, pic 9, pic 10] ∧
    (Previous rsTable25 (Next rsTable25 stPage1).st).st.firstId = 1 ∧
    (Previous rsTable25 (Next rsTable25 stPage1).st).st.lastId = 10 ∧
    (Previous rsTable25 (Next rsTable25 stPage1).st).st.firstId ≠ stPage1.firstId ∧
    (Previous rsTable25 (Next rsTable25 stPage1).st).st.lastId ≠ stPage1.lastId := by
  decide

end GorPicture
